import Mathlib

/-!
Shallow embedding of the physics core of the gravity simulator
(`simulation.py`): softened pairwise gravitation, velocity-Verlet
integration, collision merging with black-hole dominance, and
supernova fragmentation.  Vectors are pairs of reals, masses and radii
are reals, `kind`/`tag` are the strings the source uses.
-/

namespace GravitySim

open scoped Classical

noncomputable section

/-- Constant `G = 9.8` (simulation.py line 18). -/
def G : ℝ := 9.8

/-- Constant `SOFTENING = 1e-3` (simulation.py line 19). -/
def SOFTENING : ℝ := 1e-3

/-- A body record: position/velocity (2-vectors), mass, radius, display
color (the spec's `tag`) and body type (the spec's `kind`:
"planet", "star", "blackhole"). -/
structure Body where
  position : ℝ × ℝ
  velocity : ℝ × ℝ
  mass : ℝ
  radius : ℝ
  color : String
  body_type : String

/-- Squared Euclidean separation of two 2-vectors. -/
def sqDist (p q : ℝ × ℝ) : ℝ := (q.1 - p.1) ^ 2 + (q.2 - p.2) ^ 2

/-- Function `accel` (simulation.py lines 51-69): softened Newtonian
accelerations.  Entry `(i,j)` of the inverse-cube matrix is
`(‖p_j − p_i‖² + eps²) ** (−1.5)` with the diagonal zeroed
(`np.fill_diagonal`), and
`a_i = G_const · Σ_j (p_j − p_i) · invDist3[i,j] · m_j`. -/
def accel {n : ℕ} (ps : Fin n → ℝ × ℝ) (ms : Fin n → ℝ)
    (G_const : ℝ) (eps : ℝ) : Fin n → ℝ × ℝ :=
  fun i =>
    G_const •
      ∑ j : Fin n,
        (ms j *
          (if i = j then 0
           else (sqDist (ps i) (ps j) + eps ^ 2) ^ (-1.5 : ℝ))) • (ps j - ps i)

/-- Function `velocity_verlet_step` (simulation.py lines 72-91): advance all
bodies one velocity-Verlet step from a single snapshot of positions,
velocities and masses.  The in-place mutation of the source is
rendered as returning the new list of bodies. -/
def velocity_verlet_step (bodies : List Body) (dt : ℝ) : List Body :=
  if bodies.isEmpty then bodies
  else
    let ps : Fin bodies.length → ℝ × ℝ := fun i => (bodies.get i).position
    let vs : Fin bodies.length → ℝ × ℝ := fun i => (bodies.get i).velocity
    let ms : Fin bodies.length → ℝ := fun i => (bodies.get i).mass
    let a := accel ps ms G SOFTENING
    let vhalf := fun i => vs i + (0.5 * dt) • a i
    let pnew := fun i => ps i + dt • vhalf i
    let anew := accel pnew ms G SOFTENING
    let vnew := fun i => vhalf i + (0.5 * dt) • anew i
    List.ofFn fun i =>
      { bodies.get i with position := pnew i, velocity := vnew i }

/-- Function `merge_bodies` (simulation.py lines 94-110): merge two bodies
conserving momentum; radius combines area-like; type/color prefer the
heavier body, black hole dominating the type. -/
def merge_bodies (b1 b2 : Body) : Body :=
  let total_mass := b1.mass + b2.mass
  let pos := total_mass⁻¹ • (b1.mass • b1.position + b2.mass • b2.position)
  let vel := total_mass⁻¹ • (b1.mass • b1.velocity + b2.mass • b2.velocity)
  let radius := Real.sqrt (b1.radius ^ 2 + b2.radius ^ 2)
  let body_type :=
    if b1.body_type = "blackhole" ∨ b2.body_type = "blackhole" then "blackhole"
    else if b1.mass ≥ b2.mass then b1.body_type else b2.body_type
  let color := if b1.mass ≥ b2.mass then b1.color else b2.color
  { position := pos, velocity := vel, mass := total_mass,
    radius := radius, color := color, body_type := body_type }

/-- The merge performed inside `handle_collisions` (simulation.py
lines 140-151): `merge_bodies`, with type forced to "blackhole" and
color forced to "black" when either input is a black hole, paired with
the flash's final color (the heavier input's color). -/
def mergeInCollision (bi bj : Body) : Body × String :=
  let merged :=
    if bi.body_type = "blackhole" ∨ bj.body_type = "blackhole" then
      { merge_bodies bi bj with body_type := "blackhole", color := "black" }
    else merge_bodies bi bj
  (merged, if bi.mass ≥ bj.mass then bi.color else bj.color)

/-- The inner scan of `handle_collisions` (simulation.py lines
134-154): among candidate indices `js` (the range `i+1 … N−1`), find
the first `j` not yet merged whose body overlaps `bi`
(`‖p_i − p_j‖ < r_i + r_j`), returning the index and the body. -/
def findPartner (bodies : List Body) (flags : List ℕ) (bi : Body) :
    List ℕ → Option (ℕ × Body)
  | [] => none
  | j :: rest =>
    if j ∈ flags then findPartner bodies flags bi rest
    else
      match bodies[j]? with
      | none => findPartner bodies flags bi rest
      | some bj =>
        if Real.sqrt (sqDist bi.position bj.position) < bi.radius + bj.radius
        then some (j, bj)
        else findPartner bodies flags bi rest

/-- The outer loop of `handle_collisions` (simulation.py lines
129-156): iterate over the remaining indices `idxs`; an index already
merged is skipped; otherwise the first overlapping later partner (if
any) is merged with it and both indices flagged, else the body is
carried over unchanged. -/
def collideLoop (bodies : List Body) : List ℕ → List ℕ →
    List Body × List (Body × String)
  | [], _ => ([], [])
  | i :: rest, flags =>
    if i ∈ flags then collideLoop bodies rest flags
    else
      match bodies[i]? with
      | none => collideLoop bodies rest flags
      | some bi =>
        match findPartner bodies flags bi
            (List.range' (i + 1) (bodies.length - (i + 1))) with
        | some (j, bj) =>
          let mf := mergeInCollision bi bj
          let res := collideLoop bodies rest (i :: j :: flags)
          (mf.1 :: res.1, mf :: res.2)
        | none =>
          let res := collideLoop bodies rest flags
          (bi :: res.1, res.2)

/-- Function `handle_collisions` (simulation.py lines 113-158): with at most one
body nothing merges; otherwise run the greedy pass over all indices. -/
def handle_collisions (bodies : List Body) :
    List Body × List (Body × String) :=
  if bodies.length ≤ 1 then (bodies, [])
  else collideLoop bodies (List.range bodies.length) []

/-- Remove the first occurrence of `star` from the list, the embedding
of Python's `bodies.remove(star)` wrapped in `try/except ValueError`
(simulation.py lines 172-176): removing an absent element changes
nothing. -/
def eraseFirst : List Body → Body → List Body
  | [], _ => []
  | b :: rest, star => if b = star then rest else b :: eraseFirst rest star

/-- One outcome of every random draw `trigger_supernova` makes: the
fragment count (`np.random.randint(6, 12)`), and per fragment index the
mass (`uniform(0.05, 1.5)`), velocity perturbation
(`uniform(-2, 2, size=2)`), position offset (`uniform(-0.5, 0.5,
size=2)`) and color choice, plus the remnant roll (`np.random.rand()`). -/
structure SupernovaRand where
  n_frags : ℕ
  fragMass : ℕ → ℝ
  fragPerturb : ℕ → ℝ × ℝ
  fragOffset : ℕ → ℝ × ℝ
  fragColor : ℕ → String
  remnantRoll : ℝ

/-- The draws lie in the ranges the numpy distributions guarantee. -/
def SupernovaRand.Wellformed (r : SupernovaRand) : Prop :=
  6 ≤ r.n_frags ∧ r.n_frags < 12 ∧
  (∀ k, 0.05 ≤ r.fragMass k ∧ r.fragMass k < 1.5) ∧
  (∀ k, -2 ≤ (r.fragPerturb k).1 ∧ (r.fragPerturb k).1 < 2 ∧
        -2 ≤ (r.fragPerturb k).2 ∧ (r.fragPerturb k).2 < 2) ∧
  (∀ k, -0.5 ≤ (r.fragOffset k).1 ∧ (r.fragOffset k).1 < 0.5 ∧
        -0.5 ≤ (r.fragOffset k).2 ∧ (r.fragOffset k).2 < 0.5) ∧
  (∀ k, r.fragColor k ∈ ["orange", "red", "yellow", "white"]) ∧
  0 ≤ r.remnantRoll ∧ r.remnantRoll < 1

/-- One fragment of the explosion (simulation.py lines 184-189). -/
def mkFragment (star : Body) (r : SupernovaRand) (k : ℕ) : Body :=
  { position := star.position + r.fragOffset k
    velocity := star.velocity + r.fragPerturb k
    mass := r.fragMass k
    radius := max 0.02 (Real.sqrt (r.fragMass k) * 0.03)
    color := r.fragColor k
    body_type := "planet" }

/-- The remnant of the explosion (simulation.py lines 192-195). -/
def mkRemnant (star : Body) (r : SupernovaRand) : Body :=
  if r.remnantRoll < 0.75 then
    { position := star.position, velocity := star.velocity,
      mass := star.mass * 0.4, radius := max 0.05 (star.radius * 0.6),
      color := "darkgray", body_type := "blackhole" }
  else
    { position := star.position, velocity := star.velocity,
      mass := star.mass * 0.2, radius := max 0.04 (star.radius * 0.5),
      color := "blue", body_type := "star" }

/-- Function `trigger_supernova` (simulation.py lines 161-196).  Returns the
updated body list (the source mutates it) paired with the list of new
bodies.  Below the 20.0 mass threshold nothing happens and the new-body
list is empty; otherwise the star is removed (absent is a no-op) and
`n_frags` fragments plus one remnant are produced. -/
def trigger_supernova (bodies : List Body) (star : Body)
    (r : SupernovaRand) : List Body × List Body :=
  if star.mass < 20.0 then (bodies, [])
  else
    let bodies' := eraseFirst bodies star
    let fragments := (List.range r.n_frags).map (mkFragment star r)
    (bodies', fragments ++ [mkRemnant star r])

/-! Spec-side transcription of the collision pass (§4.3 of the spec),
worded from the specification text rather than the source: consumed
indices form a set, and the partner of `i` is the first index `j > i`,
not yet consumed, whose body overlaps `i`'s. -/

/-- Spec wording: `j` qualifies as a partner when it is not yet
consumed and `‖p_i − p_j‖ < r_i + r_j`. -/
def overlapPred (bodies : List Body) (consumed : Finset ℕ) (bi : Body)
    (j : ℕ) : Bool :=
  decide (j ∉ consumed ∧ ∃ bj, bodies[j]? = some bj ∧
    Real.sqrt (sqDist bi.position bj.position) < bi.radius + bj.radius)

/-- Spec wording: the first qualifying `j` in `i+1 … N−1`. -/
def overlapsFirst (bodies : List Body) (consumed : Finset ℕ) (i : ℕ)
    (bi : Body) : Option ℕ :=
  (List.range' (i + 1) (bodies.length - (i + 1))).find?
    (overlapPred bodies consumed bi)

/-- Spec wording: iterate indices ascending; a consumed index is
skipped; on the first qualifying partner merge the pair and mark both
consumed; an unmatched body is carried over unchanged in order. -/
def specLoop (bodies : List Body) : List ℕ → Finset ℕ →
    List Body × List (Body × String)
  | [], _ => ([], [])
  | i :: rest, consumed =>
    if i ∈ consumed then specLoop bodies rest consumed
    else
      match bodies[i]? with
      | none => specLoop bodies rest consumed
      | some bi =>
        match overlapsFirst bodies consumed i bi with
        | some j =>
          match bodies[j]? with
          | some bj =>
            let mf := mergeInCollision bi bj
            let res := specLoop bodies rest (insert i (insert j consumed))
            (mf.1 :: res.1, mf :: res.2)
          | none => specLoop bodies rest consumed
        | none =>
          let res := specLoop bodies rest consumed
          (bi :: res.1, res.2)

/-- Spec wording of the whole collision-resolution pass. -/
def resolveCollisionsSpec (bodies : List Body) :
    List Body × List (Body × String) :=
  if bodies.length ≤ 1 then (bodies, [])
  else specLoop bodies (List.range bodies.length) ∅

/-! Concrete example values used to instantiate the theorems. -/

/-- A unit-mass planet at the origin. -/
def exPlanetA : Body := ⟨(0, 0), (0, 0), 1, 1, "cyan", "planet"⟩

/-- A unit-mass planet of another color. -/
def exPlanetC : Body := ⟨(1, 0), (0, 0), 1, 1, "red", "planet"⟩

/-- A mass-2 planet at the origin. -/
def exPlanetHeavy : Body := ⟨(0, 0), (0, 0), 2, 1, "cyan", "planet"⟩

/-- A unit-mass black hole at the origin. -/
def exBH : Body := ⟨(0, 0), (0, 0), 1, 1, "purple", "blackhole"⟩

/-- A star just below the supernova threshold. -/
def exStar19 : Body := ⟨(0, 0), (0, 0), 19.9, 1, "yellow", "star"⟩

/-- A star above the supernova threshold. -/
def exStar25 : Body := ⟨(0, 0), (0, 0), 25, 1, "yellow", "star"⟩

/-- A concrete outcome of the supernova's random draws. -/
def exRand : SupernovaRand :=
  ⟨6, fun _ => 1, fun _ => (0, 0), fun _ => (0, 0), fun _ => "red", 0.5⟩

end

/-! ### Theorems -/

lemma sqDist_nonneg (p q : ℝ × ℝ) : 0 ≤ sqDist p q := by
  unfold sqDist
  positivity

/-- C1: for every body set, `accel` returns for each index `i` the
acceleration `a_i = G · Σ_{j≠i} m_j · (p_j − p_i) / (‖p_j − p_i‖² + ε²)^1.5`
with `G = 9.8` and `ε = 1e-3`; the self-term `j = i` is excluded
exactly, and for `N = 0` or `N = 1` the result is all-zero. -/
theorem accel_softened_pairwise_C1 :
    G = 9.8 ∧ SOFTENING = 1e-3 ∧
    (∀ (n : ℕ) (ps : Fin n → ℝ × ℝ) (ms : Fin n → ℝ) (i : Fin n),
      accel ps ms G SOFTENING i =
        G • ∑ j ∈ Finset.univ.erase i,
          (ms j / (sqDist (ps i) (ps j) + SOFTENING ^ 2) ^ (1.5 : ℝ)) •
            (ps j - ps i)) ∧
    (∀ (ps : Fin 0 → ℝ × ℝ) (ms : Fin 0 → ℝ) (i : Fin 0),
      accel ps ms G SOFTENING i = 0) ∧
    (∀ (ps : Fin 1 → ℝ × ℝ) (ms : Fin 1 → ℝ) (i : Fin 1),
      accel ps ms G SOFTENING i = 0) := by
  refine ⟨rfl, rfl, ?_, ?_, ?_⟩
  · intro n ps ms i
    unfold accel
    congr 1
    rw [← Finset.add_sum_erase Finset.univ _ (Finset.mem_univ i)]
    rw [if_pos rfl, mul_zero, zero_smul, zero_add]
    refine Finset.sum_congr rfl ?_
    intro j hj
    have hij : ¬ i = j := fun h => Finset.ne_of_mem_erase hj h.symm
    rw [if_neg hij]
    have hD : (0 : ℝ) ≤ sqDist (ps i) (ps j) + SOFTENING ^ 2 := by
      have h1 := sqDist_nonneg (ps i) (ps j)
      positivity
    rw [Real.rpow_neg hD, div_eq_mul_inv]
  · intro ps ms i
    exact i.elim0
  · intro ps ms i
    unfold accel
    rw [Finset.sum_eq_zero fun j _ => by
      rw [if_pos (Subsingleton.elim i j), mul_zero, zero_smul]]
    rw [smul_zero]

lemma verlet_eq_ofFn (bodies : List Body) (dt : ℝ) :
    velocity_verlet_step bodies dt =
      List.ofFn fun i : Fin bodies.length =>
        { bodies.get i with
          position :=
            (bodies.get i).position +
              dt • ((bodies.get i).velocity +
                (0.5 * dt) • accel (fun k => (bodies.get k).position)
                  (fun k => (bodies.get k).mass) G SOFTENING i)
          velocity :=
            ((bodies.get i).velocity +
                (0.5 * dt) • accel (fun k => (bodies.get k).position)
                  (fun k => (bodies.get k).mass) G SOFTENING i) +
              (0.5 * dt) • accel
                (fun k => (bodies.get k).position +
                  dt • ((bodies.get k).velocity +
                    (0.5 * dt) • accel (fun l => (bodies.get l).position)
                      (fun l => (bodies.get l).mass) G SOFTENING k))
                (fun k => (bodies.get k).mass) G SOFTENING i } := by
  cases h : bodies.isEmpty
  · rw [velocity_verlet_step, if_neg (by simp [h])]
  · have hb : bodies = [] := List.isEmpty_iff.mp h
    subst hb
    rfl

/-- C2: one integration step performs the five velocity-Verlet stages —
`a(t)` from current positions, `v_half = v + 0.5·a(t)·dt`,
`p' = p + v_half·dt`, `a(t+dt)` from `p'`,
`v' = v_half + 0.5·a(t+dt)·dt` — with every body's new state a function
of the single pre-step snapshot only (the right-hand side below reads
exclusively the input list), mass/radius/color/kind untouched, and an
empty body set a no-op. -/
theorem velocity_verlet_single_snapshot_C2 :
    (∀ dt : ℝ, velocity_verlet_step [] dt = []) ∧
    (∀ (bodies : List Body) (dt : ℝ),
      (velocity_verlet_step bodies dt).length = bodies.length) ∧
    (∀ (bodies : List Body) (dt : ℝ),
      velocity_verlet_step bodies dt =
        List.ofFn fun i : Fin bodies.length =>
          { bodies.get i with
            position :=
              (bodies.get i).position +
                dt • ((bodies.get i).velocity +
                  (0.5 * dt) • accel (fun k => (bodies.get k).position)
                    (fun k => (bodies.get k).mass) G SOFTENING i)
            velocity :=
              ((bodies.get i).velocity +
                  (0.5 * dt) • accel (fun k => (bodies.get k).position)
                    (fun k => (bodies.get k).mass) G SOFTENING i) +
                (0.5 * dt) • accel
                  (fun k => (bodies.get k).position +
                    dt • ((bodies.get k).velocity +
                      (0.5 * dt) • accel (fun l => (bodies.get l).position)
                        (fun l => (bodies.get l).mass) G SOFTENING k))
                  (fun k => (bodies.get k).mass) G SOFTENING i }) :=
  ⟨fun dt => verlet_eq_ofFn [] dt,
    fun bodies dt => by rw [verlet_eq_ofFn, List.length_ofFn],
    verlet_eq_ofFn⟩

/-- C3: merging two bodies of positive mass adds the masses, conserves
momentum and the center of mass (positions and velocities are the
mass-weighted averages), and combines the radii as
`sqrt(r₁² + r₂²)`. -/
theorem merge_conserves_mass_momentum_C3 (A B : Body)
    (hA : 0 < A.mass) (hB : 0 < B.mass) :
    (merge_bodies A B).mass = A.mass + B.mass ∧
    (merge_bodies A B).mass • (merge_bodies A B).velocity =
      A.mass • A.velocity + B.mass • B.velocity ∧
    (merge_bodies A B).mass • (merge_bodies A B).position =
      A.mass • A.position + B.mass • B.position ∧
    (merge_bodies A B).radius = Real.sqrt (A.radius ^ 2 + B.radius ^ 2) := by
  have htot : A.mass + B.mass ≠ 0 := by positivity
  unfold merge_bodies
  refine ⟨rfl, ?_, ?_, rfl⟩
  · rw [smul_smul, mul_inv_cancel₀ htot, one_smul]
  · rw [smul_smul, mul_inv_cancel₀ htot, one_smul]

/-- Witness for C3 at two concrete planets. -/
theorem merge_conserves_mass_momentum_C3_witness :
    0 < exPlanetA.mass ∧ 0 < exPlanetHeavy.mass ∧
    ((merge_bodies exPlanetA exPlanetHeavy).mass =
        exPlanetA.mass + exPlanetHeavy.mass ∧
      (merge_bodies exPlanetA exPlanetHeavy).mass •
          (merge_bodies exPlanetA exPlanetHeavy).velocity =
        exPlanetA.mass • exPlanetA.velocity +
          exPlanetHeavy.mass • exPlanetHeavy.velocity ∧
      (merge_bodies exPlanetA exPlanetHeavy).mass •
          (merge_bodies exPlanetA exPlanetHeavy).position =
        exPlanetA.mass • exPlanetA.position +
          exPlanetHeavy.mass • exPlanetHeavy.position ∧
      (merge_bodies exPlanetA exPlanetHeavy).radius =
        Real.sqrt (exPlanetA.radius ^ 2 + exPlanetHeavy.radius ^ 2)) :=
  ⟨by norm_num [exPlanetA], by norm_num [exPlanetHeavy],
    merge_conserves_mass_momentum_C3 exPlanetA exPlanetHeavy
      (by norm_num [exPlanetA]) (by norm_num [exPlanetHeavy])⟩

/-- C5: if either input of a merge is a black hole, the merged body's
kind is black hole, both for `merge_bodies` itself and for the merge
performed inside collision resolution. -/
theorem merge_blackhole_dominance_C5 (A B : Body)
    (h : A.body_type = "blackhole" ∨ B.body_type = "blackhole") :
    (merge_bodies A B).body_type = "blackhole" ∧
    (mergeInCollision A B).1.body_type = "blackhole" := by
  constructor
  · unfold merge_bodies
    rw [if_pos h]
  · unfold mergeInCollision
    rw [if_pos h]

/-- Witness for C5: a planet merged with a black hole. -/
theorem merge_blackhole_dominance_C5_witness :
    (exPlanetA.body_type = "blackhole" ∨ exBH.body_type = "blackhole") ∧
    ((merge_bodies exPlanetA exBH).body_type = "blackhole" ∧
      (mergeInCollision exPlanetA exBH).1.body_type = "blackhole") :=
  ⟨Or.inr rfl, merge_blackhole_dominance_C5 exPlanetA exBH (Or.inr rfl)⟩

lemma eraseFirst_of_not_mem (star : Body) :
    ∀ bodies : List Body, star ∉ bodies → eraseFirst bodies star = bodies := by
  intro bodies
  induction bodies with
  | nil => intro _; rfl
  | cons b rest ih =>
    intro h
    rw [List.mem_cons, not_or] at h
    simp only [eraseFirst]
    rw [if_neg (fun hb => h.1 hb.symm), ih h.2]

lemma eraseFirst_length_of_mem (star : Body) :
    ∀ bodies : List Body, star ∈ bodies →
      (eraseFirst bodies star).length + 1 = bodies.length := by
  intro bodies
  induction bodies with
  | nil => intro h; cases h
  | cons b rest ih =>
    intro h
    by_cases hb : b = star
    · simp only [eraseFirst, if_pos hb, List.length_cons]
    · simp only [eraseFirst, if_neg hb, List.length_cons]
      have hmem : star ∈ rest := by
        rcases List.mem_cons.mp h with h1 | h2
        · exact absurd h1.symm hb
        · exact h2
      rw [ih hmem]

/-- C7: a supernova trigger on a target lighter than 20.0 returns an
empty list and leaves the body set unchanged, and triggering on a
target absent from the set never fails — the removal is an idempotent
no-op on the set. -/
theorem supernova_below_threshold_noop_C7 (bodies : List Body)
    (star : Body) (r : SupernovaRand) :
    (star.mass < 20.0 → trigger_supernova bodies star r = (bodies, [])) ∧
    (star ∉ bodies → (trigger_supernova bodies star r).1 = bodies) := by
  constructor
  · intro h
    rw [trigger_supernova, if_pos h]
  · intro h
    rw [trigger_supernova]
    by_cases hm : star.mass < 20.0
    · rw [if_pos hm]
    · rw [if_neg hm]
      exact eraseFirst_of_not_mem star bodies h

/-- Witness for C7: a 19.9-mass star is a no-op, and an eligible star
absent from the set leaves the set untouched. -/
theorem supernova_below_threshold_noop_C7_witness :
    exStar19.mass < 20.0 ∧ (exStar25 ∉ ([] : List Body)) ∧
    trigger_supernova [exStar19] exStar19 exRand = ([exStar19], []) ∧
    (trigger_supernova [] exStar25 exRand).1 = [] :=
  ⟨by norm_num [exStar19], by simp,
    (supernova_below_threshold_noop_C7 [exStar19] exStar19 exRand).1
      (by norm_num [exStar19]),
    (supernova_below_threshold_noop_C7 [] exStar25 exRand).2 (by simp)⟩

/-- C8: an eligible supernova target is removed from the set and
produces `n_frags ∈ [6, 12)` fragments followed by exactly one
remnant; each fragment is a planet of mass in `[0.05, 1.5)`, velocity
and position the target's perturbed by the drawn amounts, radius
`max(0.02, sqrt(mass)·0.03)`; the remnant keeps the target's position
and velocity and is a black hole of mass `0.4·mass` and radius
`max(0.05, 0.6·radius)` when the roll is below 0.75, else a star of
mass `0.2·mass` and radius `max(0.04, 0.5·radius)`. -/
theorem supernova_explosion_outcome_C8 (bodies : List Body) (star : Body)
    (r : SupernovaRand) (hwf : r.Wellformed) (hm : 20.0 ≤ star.mass) :
    (trigger_supernova bodies star r).1 = eraseFirst bodies star ∧
    (star ∈ bodies →
      (trigger_supernova bodies star r).1.length + 1 = bodies.length) ∧
    ((trigger_supernova bodies star r).2).length = r.n_frags + 1 ∧
    6 ≤ r.n_frags ∧ r.n_frags < 12 ∧
    (∀ k, k < r.n_frags →
      ((trigger_supernova bodies star r).2)[k]? =
        some (mkFragment star r k)) ∧
    (∀ k, (mkFragment star r k).body_type = "planet" ∧
      0.05 ≤ (mkFragment star r k).mass ∧ (mkFragment star r k).mass < 1.5 ∧
      (mkFragment star r k).velocity = star.velocity + r.fragPerturb k ∧
      (mkFragment star r k).position = star.position + r.fragOffset k ∧
      (mkFragment star r k).radius =
        max 0.02 (Real.sqrt ((mkFragment star r k).mass) * 0.03)) ∧
    ((trigger_supernova bodies star r).2)[r.n_frags]? =
      some (mkRemnant star r) ∧
    (mkRemnant star r).position = star.position ∧
    (mkRemnant star r).velocity = star.velocity ∧
    (r.remnantRoll < 0.75 →
      (mkRemnant star r).body_type = "blackhole" ∧
      (mkRemnant star r).mass = 0.4 * star.mass ∧
      (mkRemnant star r).radius = max 0.05 (0.6 * star.radius)) ∧
    (0.75 ≤ r.remnantRoll →
      (mkRemnant star r).body_type = "star" ∧
      (mkRemnant star r).mass = 0.2 * star.mass ∧
      (mkRemnant star r).radius = max 0.04 (0.5 * star.radius)) := by
  have hnot : ¬ star.mass < 20.0 := not_lt.mpr hm
  have h1 : (trigger_supernova bodies star r).1 = eraseFirst bodies star := by
    rw [trigger_supernova, if_neg hnot]
  have h2 : (trigger_supernova bodies star r).2 =
      (List.range r.n_frags).map (mkFragment star r) ++ [mkRemnant star r] := by
    rw [trigger_supernova, if_neg hnot]
  obtain ⟨h6, h12, hmass, -, -, -, -, -⟩ := hwf
  refine ⟨h1, ?_, ?_, h6, h12, ?_, ?_, ?_, ?_, ?_, ?_, ?_⟩
  · intro hmem
    rw [h1]
    exact eraseFirst_length_of_mem star bodies hmem
  · rw [h2]
    simp
  · intro k hk
    rw [h2, List.getElem?_append_left (by simpa using hk)]
    simp [hk]
  · intro k
    exact ⟨rfl, (hmass k).1, (hmass k).2, rfl, rfl, rfl⟩
  · rw [h2, List.getElem?_append_right (by simp)]
    simp
  · unfold mkRemnant
    split <;> rfl
  · unfold mkRemnant
    split <;> rfl
  · intro h
    unfold mkRemnant
    rw [if_pos h]
    exact ⟨rfl, mul_comm _ _, by rw [mul_comm star.radius]⟩
  · intro h
    unfold mkRemnant
    rw [if_neg (not_lt.mpr h)]
    exact ⟨rfl, mul_comm _ _, by rw [mul_comm star.radius]⟩

lemma exRand_wellformed : SupernovaRand.Wellformed exRand := by
  refine ⟨by norm_num [exRand], by norm_num [exRand], ?_, ?_, ?_, ?_, ?_, ?_⟩
  all_goals simp [exRand]
  all_goals norm_num

/-- Witness for C8: the 25-mass example star with a concrete outcome of
the random draws. -/
theorem supernova_explosion_outcome_C8_witness :
    SupernovaRand.Wellformed exRand ∧ 20.0 ≤ exStar25.mass ∧
    ((trigger_supernova [exStar25] exStar25 exRand).2).length =
      exRand.n_frags + 1 :=
  ⟨exRand_wellformed, by norm_num [exStar25],
    (supernova_explosion_outcome_C8 [exStar25] exStar25 exRand
      exRand_wellformed (by norm_num [exStar25])).2.2.1⟩

/-- C9: merging (A, B) and (B, A) yield the same mass, position,
velocity and radius; on exactly equal masses the tie-break for color
and (in the non-black-hole case) kind goes to the first-listed body. -/
theorem merge_commutative_C9 (A B : Body) :
    (merge_bodies A B).mass = (merge_bodies B A).mass ∧
    (merge_bodies A B).position = (merge_bodies B A).position ∧
    (merge_bodies A B).velocity = (merge_bodies B A).velocity ∧
    (merge_bodies A B).radius = (merge_bodies B A).radius ∧
    (A.mass = B.mass →
      (merge_bodies A B).color = A.color ∧
      (merge_bodies B A).color = B.color ∧
      (A.body_type ≠ "blackhole" → B.body_type ≠ "blackhole" →
        (merge_bodies A B).body_type = A.body_type ∧
        (merge_bodies B A).body_type = B.body_type)) := by
  simp only [merge_bodies]
  refine ⟨by rw [add_comm], ?_, ?_, by rw [add_comm (A.radius ^ 2)], ?_⟩
  · rw [add_comm A.mass, add_comm (A.mass • A.position)]
  · rw [add_comm A.mass, add_comm (A.mass • A.velocity)]
  · intro hm
    refine ⟨by rw [if_pos (ge_of_eq hm)], by rw [if_pos (ge_of_eq hm.symm)], ?_⟩
    intro hA hB
    exact ⟨by rw [if_neg (by tauto), if_pos (ge_of_eq hm)],
      by rw [if_neg (by tauto), if_pos (ge_of_eq hm.symm)]⟩

lemma hdist_ex : Real.sqrt (sqDist exPlanetHeavy.position exBH.position) <
    exPlanetHeavy.radius + exBH.radius := by
  have h0 : sqDist exPlanetHeavy.position exBH.position = 0 := by
    norm_num [sqDist, exPlanetHeavy, exBH]
  rw [h0, Real.sqrt_zero]
  norm_num [exPlanetHeavy, exBH]

lemma handle_collisions_ex :
    handle_collisions [exPlanetHeavy, exBH] =
      ([(mergeInCollision exPlanetHeavy exBH).1],
       [mergeInCollision exPlanetHeavy exBH]) := by
  rw [handle_collisions]
  rw [if_neg (by decide)]
  have hrange : List.range 2 = [0, 1] := rfl
  rw [show ([exPlanetHeavy, exBH] : List Body).length = 2 from rfl, hrange]
  simp only [collideLoop, findPartner, List.not_mem_nil, if_false,
    List.getElem?_cons_zero, List.getElem?_cons_succ, List.mem_cons,
    hdist_ex, if_true]
  norm_num

lemma findPartner_some_mem (bodies : List Body) (flags : List ℕ) (bi : Body) :
    ∀ js j bj, findPartner bodies flags bi js = some (j, bj) → bj ∈ bodies := by
  intro js
  induction js with
  | nil => intro j bj h; cases h
  | cons a rest ih =>
    intro j bj h
    rw [findPartner] at h
    by_cases ha : a ∈ flags
    · rw [if_pos ha] at h
      exact ih j bj h
    · rw [if_neg ha] at h
      cases hga : bodies[a]? with
      | none =>
        simp only [hga] at h
        exact ih j bj h
      | some ba =>
        simp only [hga] at h
        by_cases hd : Real.sqrt (sqDist bi.position ba.position) <
            bi.radius + ba.radius
        · rw [if_pos hd] at h
          cases h
          exact List.getElem?_mem hga
        · rw [if_neg hd] at h
          exact ih j bj h

lemma collideLoop_bodies_mem (bodies : List Body) :
    ∀ idxs flags b, b ∈ (collideLoop bodies idxs flags).1 →
      b ∈ bodies ∨
        ∃ bi ∈ bodies, ∃ bj ∈ bodies, b = (mergeInCollision bi bj).1 := by
  intro idxs
  induction idxs with
  | nil => intro flags b h; cases h
  | cons i rest ih =>
    intro flags b h
    rw [collideLoop] at h
    by_cases hi : i ∈ flags
    · rw [if_pos hi] at h
      exact ih flags b h
    · rw [if_neg hi] at h
      cases hgi : bodies[i]? with
      | none =>
        rw [hgi] at h
        exact ih flags b h
      | some bi =>
        simp only [hgi] at h
        cases hfp : findPartner bodies flags bi
            (List.range' (i + 1) (bodies.length - (i + 1))) with
        | none =>
          simp only [hfp] at h
          rcases List.mem_cons.mp h with h1 | h2
          · exact Or.inl (h1 ▸ List.getElem?_mem hgi)
          · exact ih flags b h2
        | some p =>
          obtain ⟨j, bj⟩ := p
          simp only [hfp] at h
          rcases List.mem_cons.mp h with h1 | h2
          · exact Or.inr ⟨bi, List.getElem?_mem hgi, bj,
              findPartner_some_mem bodies flags bi _ j bj hfp, h1⟩
          · exact ih _ b h2

lemma collideLoop_flashes_mem (bodies : List Body) :
    ∀ idxs flags f, f ∈ (collideLoop bodies idxs flags).2 →
      ∃ bi ∈ bodies, ∃ bj ∈ bodies, f = mergeInCollision bi bj := by
  intro idxs
  induction idxs with
  | nil => intro flags f h; cases h
  | cons i rest ih =>
    intro flags f h
    rw [collideLoop] at h
    by_cases hi : i ∈ flags
    · rw [if_pos hi] at h
      exact ih flags f h
    · rw [if_neg hi] at h
      cases hgi : bodies[i]? with
      | none =>
        rw [hgi] at h
        exact ih flags f h
      | some bi =>
        simp only [hgi] at h
        cases hfp : findPartner bodies flags bi
            (List.range' (i + 1) (bodies.length - (i + 1))) with
        | none =>
          simp only [hfp] at h
          exact ih flags f h
        | some p =>
          obtain ⟨j, bj⟩ := p
          simp only [hfp] at h
          rcases List.mem_cons.mp h with h1 | h2
          · exact ⟨bi, List.getElem?_mem hgi, bj,
              findPartner_some_mem bodies flags bi _ j bj hfp, h1⟩
          · exact ih _ f h2

/-- Counterexample to C6 as stated: a mass-2 cyan planet colliding with
a mass-1 black hole.  The flash's final color is the heavier planet's
"cyan", but the merged body's tag is overridden to "black", not
inherited from the heavier input. -/
theorem collision_tag_counterexample_C6 :
    exPlanetHeavy.mass ≥ exBH.mass ∧ exPlanetHeavy.color = "cyan" ∧
    (handle_collisions [exPlanetHeavy, exBH]).1.map Body.color = ["black"] ∧
    (handle_collisions [exPlanetHeavy, exBH]).2.map Prod.snd = ["cyan"] ∧
    ("black" : String) ≠ "cyan" := by
  refine ⟨by norm_num [exPlanetHeavy, exBH], rfl, ?_, ?_, by decide⟩
  · rw [handle_collisions_ex]
    simp [mergeInCollision, merge_bodies, exPlanetHeavy, exBH]
  · rw [handle_collisions_ex]
    norm_num [mergeInCollision, exPlanetHeavy, exBH]

/-- C6, amended: every flash produced by collision resolution comes
from merging two bodies of the input set, its final color is the tag of
the heavier pre-merge body (ties toward the first-listed, lower-indexed
body), and the merged body carries that tag only in a merge with no
black hole; when either input is a black hole both the kind and the tag
are overridden, to "blackhole" and "black". -/
theorem collision_flash_and_tag_C6 (bi bj : Body) :
    (∀ (bodies : List Body) (f : Body × String),
      f ∈ (handle_collisions bodies).2 →
        ∃ b1 ∈ bodies, ∃ b2 ∈ bodies, f = mergeInCollision b1 b2) ∧
    (bi.mass ≥ bj.mass → (mergeInCollision bi bj).2 = bi.color) ∧
    (bi.mass < bj.mass → (mergeInCollision bi bj).2 = bj.color) ∧
    (bi.body_type ≠ "blackhole" → bj.body_type ≠ "blackhole" →
      (mergeInCollision bi bj).1.color = (mergeInCollision bi bj).2) ∧
    ((bi.body_type = "blackhole" ∨ bj.body_type = "blackhole") →
      (mergeInCollision bi bj).1.color = "black" ∧
      (mergeInCollision bi bj).1.body_type = "blackhole") := by
  refine ⟨?_, ?_, ?_, ?_, ?_⟩
  · intro bodies f h
    rw [handle_collisions] at h
    by_cases hlen : bodies.length ≤ 1
    · rw [if_pos hlen] at h
      cases h
    · rw [if_neg hlen] at h
      exact collideLoop_flashes_mem bodies _ _ f h
  · intro h
    simp only [mergeInCollision]
    rw [if_pos h]
  · intro h
    simp only [mergeInCollision]
    rw [if_neg (not_le.mpr h)]
  · intro h1 h2
    simp only [mergeInCollision, merge_bodies]
    rw [if_neg (by tauto)]
  · intro h
    simp only [mergeInCollision]
    rw [if_pos h]
    exact ⟨rfl, rfl⟩

/-- Witness for C6 (amended) at the planet/black-hole example pair. -/
theorem collision_flash_and_tag_C6_witness :
    exPlanetHeavy.mass ≥ exBH.mass ∧
    (mergeInCollision exPlanetHeavy exBH).2 = exPlanetHeavy.color ∧
    (exPlanetHeavy.body_type = "blackhole" ∨ exBH.body_type = "blackhole") ∧
    (mergeInCollision exPlanetHeavy exBH).1.color = "black" :=
  ⟨by norm_num [exPlanetHeavy, exBH],
    (collision_flash_and_tag_C6 exPlanetHeavy exBH).2.1
      (by norm_num [exPlanetHeavy, exBH]),
    Or.inr rfl,
    ((collision_flash_and_tag_C6 exPlanetHeavy exBH).2.2.2.2 (Or.inr rfl)).1⟩

/-- Witness for C9 at two concrete equal-mass planets. -/
theorem merge_commutative_C9_witness :
    exPlanetA.mass = exPlanetC.mass ∧
    (merge_bodies exPlanetA exPlanetC).color = exPlanetA.color ∧
    (merge_bodies exPlanetA exPlanetC).mass =
      (merge_bodies exPlanetC exPlanetA).mass :=
  ⟨by norm_num [exPlanetA, exPlanetC],
    ((merge_commutative_C9 exPlanetA exPlanetC).2.2.2.2
      (by norm_num [exPlanetA, exPlanetC])).1,
    (merge_commutative_C9 exPlanetA exPlanetC).1⟩

lemma mergeInCollision_mass (bi bj : Body) :
    (mergeInCollision bi bj).1.mass = bi.mass + bj.mass := by
  simp only [mergeInCollision, merge_bodies]
  split <;> rfl

lemma mergeInCollision_radius (bi bj : Body) :
    (mergeInCollision bi bj).1.radius =
      Real.sqrt (bi.radius ^ 2 + bj.radius ^ 2) := by
  simp only [mergeInCollision, merge_bodies]
  split <;> rfl

lemma eraseFirst_subset (star : Body) :
    ∀ bodies, ∀ b ∈ eraseFirst bodies star, b ∈ bodies := by
  intro bodies
  induction bodies with
  | nil => intro b h; cases h
  | cons c rest ih =>
    intro b h
    simp only [eraseFirst] at h
    by_cases hc : c = star
    · rw [if_pos hc] at h
      exact List.mem_cons_of_mem c h
    · rw [if_neg hc] at h
      rcases List.mem_cons.mp h with h1 | h2
      · exact h1 ▸ List.mem_cons_self c rest
      · exact List.mem_cons_of_mem c (ih b h2)

/-- C10: positivity of mass and radius is preserved by the integration
step, by collision resolution (including merged bodies), and by the
supernova trigger (surviving set, fragments and remnant); and the
integration step changes no body's kind — the per-index mass, radius
and kind lists are untouched by it. -/
theorem invariants_preserved_C10 :
    (∀ (bodies : List Body) (dt : ℝ),
      (velocity_verlet_step bodies dt).map Body.mass =
          bodies.map Body.mass ∧
        (velocity_verlet_step bodies dt).map Body.radius =
          bodies.map Body.radius ∧
        (velocity_verlet_step bodies dt).map Body.body_type =
          bodies.map Body.body_type) ∧
    (∀ (bodies : List Body) (dt : ℝ),
      (∀ b ∈ bodies, 0 < b.mass ∧ 0 < b.radius) →
        ∀ b ∈ velocity_verlet_step bodies dt, 0 < b.mass ∧ 0 < b.radius) ∧
    (∀ bodies : List Body,
      (∀ b ∈ bodies, 0 < b.mass ∧ 0 < b.radius) →
        ∀ b ∈ (handle_collisions bodies).1, 0 < b.mass ∧ 0 < b.radius) ∧
    (∀ (bodies : List Body) (star : Body) (r : SupernovaRand),
      r.Wellformed → (∀ b ∈ bodies, 0 < b.mass ∧ 0 < b.radius) →
        0 < star.mass → 0 < star.radius →
        (∀ b ∈ (trigger_supernova bodies star r).1,
          0 < b.mass ∧ 0 < b.radius) ∧
        (∀ b ∈ (trigger_supernova bodies star r).2,
          0 < b.mass ∧ 0 < b.radius)) := by
  refine ⟨?_, ?_, ?_, ?_⟩
  · intro bodies dt
    refine ⟨?_, ?_, ?_⟩
    · rw [verlet_eq_ofFn, List.map_ofFn]
      exact List.ofFn_get_eq_map bodies Body.mass
    · rw [verlet_eq_ofFn, List.map_ofFn]
      exact List.ofFn_get_eq_map bodies Body.radius
    · rw [verlet_eq_ofFn, List.map_ofFn]
      exact List.ofFn_get_eq_map bodies Body.body_type
  · intro bodies dt hpos b hb
    rw [verlet_eq_ofFn] at hb
    obtain ⟨i, rfl⟩ := (List.mem_ofFn _ _).mp hb
    exact hpos (bodies.get i) (List.get_mem bodies i.1 i.2)
  · intro bodies hpos b hb
    rw [handle_collisions] at hb
    by_cases hlen : bodies.length ≤ 1
    · rw [if_pos hlen] at hb
      exact hpos b hb
    · rw [if_neg hlen] at hb
      rcases collideLoop_bodies_mem bodies _ _ b hb with h | ⟨bi, hbi, bj, hbj, rfl⟩
      · exact hpos b h
      · constructor
        · rw [mergeInCollision_mass]
          exact add_pos (hpos bi hbi).1 (hpos bj hbj).1
        · rw [mergeInCollision_radius]
          refine Real.sqrt_pos.mpr ?_
          exact add_pos_of_pos_of_nonneg (pow_pos (hpos bi hbi).2 2)
            (sq_nonneg bj.radius)
  · intro bodies star r hwf hpos hsm hsr
    obtain ⟨-, -, hmass, -, -, -, -, -⟩ := hwf
    by_cases hth : star.mass < 20.0
    · rw [trigger_supernova, if_pos hth]
      exact ⟨hpos, fun b hb => by cases hb⟩
    · have e1 : (trigger_supernova bodies star r).1 = eraseFirst bodies star := by
        rw [trigger_supernova, if_neg hth]
      have e2 : (trigger_supernova bodies star r).2 =
          (List.range r.n_frags).map (mkFragment star r) ++
            [mkRemnant star r] := by
        rw [trigger_supernova, if_neg hth]
      constructor
      · intro b hb
        rw [e1] at hb
        exact hpos b (eraseFirst_subset star bodies b hb)
      · intro b hb
        rw [e2] at hb
        rcases List.mem_append.mp hb with h1 | h2
        · obtain ⟨k, -, rfl⟩ := List.mem_map.mp h1
          constructor
          · show 0 < r.fragMass k
            have := (hmass k).1
            linarith
          · show 0 < max 0.02 (Real.sqrt (r.fragMass k) * 0.03)
            exact lt_max_of_lt_left (by norm_num)
        · rw [List.mem_singleton] at h2
          subst h2
          unfold mkRemnant
          split
          · refine ⟨?_, ?_⟩
            · show 0 < star.mass * 0.4
              positivity
            · show 0 < max 0.05 (star.radius * 0.6)
              exact lt_max_of_lt_left (by norm_num)
          · refine ⟨?_, ?_⟩
            · show 0 < star.mass * 0.2
              positivity
            · show 0 < max 0.04 (star.radius * 0.5)
              exact lt_max_of_lt_left (by norm_num)

/-- Witness for C10 at a one-planet set and the 25-mass star. -/
theorem invariants_preserved_C10_witness :
    (∀ b ∈ [exPlanetA], 0 < b.mass ∧ 0 < b.radius) ∧
    SupernovaRand.Wellformed exRand ∧
    0 < exStar25.mass ∧ 0 < exStar25.radius ∧
    (∀ b ∈ velocity_verlet_step [exPlanetA] 1, 0 < b.mass ∧ 0 < b.radius) ∧
    (∀ b ∈ (handle_collisions [exPlanetA]).1, 0 < b.mass ∧ 0 < b.radius) ∧
    (∀ b ∈ (trigger_supernova [exPlanetA] exStar25 exRand).2,
      0 < b.mass ∧ 0 < b.radius) := by
  have hpos : ∀ b ∈ [exPlanetA], 0 < b.mass ∧ 0 < b.radius := by
    intro b hb
    rw [List.mem_singleton] at hb
    subst hb
    norm_num [exPlanetA]
  have hm : 0 < exStar25.mass := by norm_num [exStar25]
  have hr : 0 < exStar25.radius := by norm_num [exStar25]
  exact ⟨hpos, exRand_wellformed, hm, hr,
    invariants_preserved_C10.2.1 [exPlanetA] 1 hpos,
    invariants_preserved_C10.2.2.1 [exPlanetA] hpos,
    (invariants_preserved_C10.2.2.2 [exPlanetA] exStar25 exRand
      exRand_wellformed hpos hm hr).2⟩

lemma findPartner_eq_spec (bodies : List Body) (flags : List ℕ)
    (consumed : Finset ℕ) (bi : Body)
    (hfc : ∀ x, x ∈ flags ↔ x ∈ consumed) :
    ∀ js, findPartner bodies flags bi js =
      match js.find? (overlapPred bodies consumed bi) with
      | none => none
      | some j =>
        match bodies[j]? with
        | none => none
        | some bj => some (j, bj) := by
  intro js
  induction js with
  | nil => rfl
  | cons a rest ih =>
    rw [findPartner]
    by_cases hmem : a ∈ flags
    · rw [if_pos hmem,
        List.find?_cons_of_neg _
          (fun hp => (of_decide_eq_true hp).1 ((hfc a).mp hmem)),
        ih]
    · rw [if_neg hmem]
      cases hga : bodies[a]? with
      | none =>
        have hpa : ¬ (overlapPred bodies consumed bi a = true) := by
          intro hp
          obtain ⟨-, bj, hbj, -⟩ := of_decide_eq_true hp
          rw [hga] at hbj
          cases hbj
        rw [List.find?_cons_of_neg _ hpa]
        simp only [hga]
        rw [ih]
      | some ba =>
        by_cases hd : Real.sqrt (sqDist bi.position ba.position) <
            bi.radius + ba.radius
        · have hpa : overlapPred bodies consumed bi a = true :=
            decide_eq_true ⟨fun hc => hmem ((hfc a).mpr hc), ba, hga, hd⟩
          rw [List.find?_cons_of_pos _ hpa]
          simp only [hga]
          rw [if_pos hd]
        · have hpa : ¬ (overlapPred bodies consumed bi a = true) := by
            intro hp
            obtain ⟨-, bj, hbj, hov⟩ := of_decide_eq_true hp
            rw [hga] at hbj
            cases hbj
            exact hd hov
          rw [List.find?_cons_of_neg _ hpa]
          simp only [hga]
          rw [if_neg hd, ih]

lemma collideLoop_eq_specLoop (bodies : List Body) :
    ∀ (idxs : List ℕ) (flags : List ℕ) (consumed : Finset ℕ),
      (∀ x, x ∈ flags ↔ x ∈ consumed) →
      collideLoop bodies idxs flags = specLoop bodies idxs consumed := by
  intro idxs
  induction idxs with
  | nil => intro flags consumed _; rfl
  | cons i rest ih =>
    intro flags consumed hfc
    rw [collideLoop, specLoop]
    by_cases hi : i ∈ flags
    · rw [if_pos hi, if_pos ((hfc i).mp hi)]
      exact ih flags consumed hfc
    · have hic : i ∉ consumed := fun hc => hi ((hfc i).mpr hc)
      rw [if_neg hi, if_neg hic]
      cases hgi : bodies[i]? with
      | none =>
        simp only [hgi]
        exact ih flags consumed hfc
      | some bi =>
        have hfp := findPartner_eq_spec bodies flags consumed bi hfc
          (List.range' (i + 1) (bodies.length - (i + 1)))
        cases hof : (List.range' (i + 1)
            (bodies.length - (i + 1))).find? (overlapPred bodies consumed bi) with
        | none =>
          have h2 : findPartner bodies flags bi
              (List.range' (i + 1) (bodies.length - (i + 1))) = none := by
            rw [hfp, hof]
          simp only [hgi, h2, overlapsFirst, hof]
          rw [ih flags consumed hfc]
        | some j =>
          cases hgj : bodies[j]? with
          | none =>
            have hp := List.find?_some hof
            obtain ⟨-, bj, hbj, -⟩ := of_decide_eq_true hp
            rw [hgj] at hbj
            cases hbj
          | some bj =>
            have h2 : findPartner bodies flags bi
                (List.range' (i + 1) (bodies.length - (i + 1))) =
                some (j, bj) := by
              rw [hfp]
              simp only [hof, hgj]
            have hmemeq : ∀ x, x ∈ i :: j :: flags ↔
                x ∈ insert i (insert j consumed) := by
              intro x
              simp [List.mem_cons, Finset.mem_insert, hfc x]
            simp only [hgi, h2, overlapsFirst, hof, hgj]
            rw [ih _ _ hmemeq]

/-- C4: the collision pass of the source — ascending indices tracked in
a flag list, an early-exit scan for the first overlapping later
partner, both members marked, unmatched bodies carried over unchanged
in order — coincides with the specification's wording of the greedy
pass (consumed-index set, first qualifying partner by `find?`). -/
theorem handle_collisions_greedy_pass_C4 (bodies : List Body) :
    handle_collisions bodies = resolveCollisionsSpec bodies := by
  rw [handle_collisions, resolveCollisionsSpec]
  by_cases h : bodies.length ≤ 1
  · rw [if_pos h, if_pos h]
  · rw [if_neg h, if_neg h]
    exact collideLoop_eq_specLoop bodies (List.range bodies.length) [] ∅
      (fun x => by simp)

end GravitySim
